import Mathlib

/-!
# Verification of the Bob-Firmware sensor/telemetry core

Shallow embedding of the three source files of the repository:

* `src/lib/qmc5883l/qmc5883l.c` — the QMC5883L magnetometer driver;
* `src/lib/hp203b/hp203b.h`    — the HP203B barometer driver interface
  (the `.c` implementation is not among the staged sources, so the
  operations the claims need are modelled from the specification);
* `src/src/hat.cpp`            — the UART line framer for NMEA sentences
  and the fixed-layout telemetry packet.

Machine integers are embedded as `Nat` / `Int` with explicit `% 256`
(resp. two's-complement conversion) where the C code truncates.  The I2C
bus is embedded as a record of state-passing functions mirroring the
pico-sdk primitives `i2c_write_timeout_per_char_us` /
`i2c_read_timeout_per_char_us`: each call returns the new bus/chip state,
the number of bytes transferred or a negative error code, and (for reads)
the bytes delivered.
-/

/-- An I2C device as seen through the pico-sdk timeout primitives, for one
fixed slave address: `write` consumes the bytes of one addressed write and
yields the count transferred or a negative error; `read` yields the count
and the bytes delivered.  `σ` is the device/bus state threaded through the
calls (the register-selector write preceding each read may change it). -/
structure I2CDev (σ : Type) where
  write : σ → List Nat → σ × Int
  read : σ → Nat → σ × Int × List Nat

/-- The pico-sdk I2C primitives return either a transferred byte count
`0..len` or `PICO_ERROR_TIMEOUT = -1` or `PICO_ERROR_GENERIC = -2`
(spec §4.1: `count|TimeoutError|GenericError`). -/
def validBusResult (len : Nat) (r : Int) : Prop :=
  (0 ≤ r ∧ r ≤ (len : Int)) ∨ r = -1 ∨ r = -2

instance (len : Nat) (r : Int) : Decidable (validBusResult len r) := by
  unfold validBusResult; infer_instance

/-! ## QMC5883L constants

`qmc5883l.h` is not among the staged sources; the constants below are
modelled from the spec (§4.3, §6, §7) and from how `qmc5883l.c` uses them:
the driver compares the bus result against `-1` for a timeout
(`QMCGetStatus`) and against `QMC_ERROR_TIMEOUT` directly (`QMCGetMag`),
so the error codes follow the pico-sdk convention, with the two
driver-specific codes on distinct negative values. -/

/-- `QMC_OK`: success. -/
def QMC_OK : Int := 0

/-- Modelled from the spec: `QMC_ERROR_TIMEOUT` (qmc5883l.h is missing);
equals the pico-sdk bus timeout code `-1`, as forced by
`qmc5883l.c:172` which compares the raw bus result to it. -/
def QMC_ERROR_TIMEOUT : Int := -1

/-- Modelled from the spec: `QMC_ERROR_GENERIC` (qmc5883l.h is missing);
any other communication anomaly (§7). -/
def QMC_ERROR_GENERIC : Int := -2

/-- Modelled from the spec: `QMC_ERROR_INVALID` (qmc5883l.h is missing);
reserved bits set in a control register (§7), distinct from the bus codes. -/
def QMC_ERROR_INVALID : Int := -3

/-- Modelled from the spec: `QMC_ERROR_STANDBY` (qmc5883l.h is missing);
the chip is configured but not sampling (§7). -/
def QMC_ERROR_STANDBY : Int := -4

/-- Modelled from the spec: register addresses of the QMC5883L
(qmc5883l.h is missing; §6 lists X/Y/Z output pairs, status, temperature
pair, control1, control2 at fixed addresses). -/
def QMC_XOUT_LSB : Nat := 0x00

/-- Modelled from the spec: the status register address. -/
def QMC_STATUS : Nat := 0x06

/-- Modelled from the spec: the control-register-1 address. -/
def QMC_CONTROL1 : Nat := 0x09

/-- Modelled from the spec: the control-register-2 address. -/
def QMC_CONTROL2 : Nat := 0x0A

/-- Modelled from the spec: status bit positions {dataReady, dataOverflow,
dataSkip} within the one status byte (§4.3: fixed bit positions). -/
def QMC_DRDY : Nat := 0

/-- Modelled from the spec: the data-overflow status bit position. -/
def QMC_DOVL : Nat := 1

/-- Modelled from the spec: the data-skip status bit position. -/
def QMC_DSKIP : Nat := 2

/-- Modelled from the spec: field shifts within control register 1
(qmc5883l.h is missing).  They are forced, up to the documented layout, by
the decoder in `qmc5883l.c:136-141`: mode is the low bit, ODR and OSR are
two-bit fields, scale one bit, and `0x22` (bits 1 and 5) is the reserved
mask, so mode sits at bit 0, ODR at bits 2-3, scale at bit 4, OSR at
bits 6-7. -/
def QMC_MODE_SHIFT : Nat := 0

/-- Modelled from the spec: the output-data-rate shift in control 1. -/
def QMC_ODR_SHIFT : Nat := 2

/-- Modelled from the spec: the scale (range) shift in control 1. -/
def QMC_SCALE_SHIFT : Nat := 4

/-- Modelled from the spec: the oversample-rate shift in control 1. -/
def QMC_OSR_SHIFT : Nat := 6

/-- Modelled from the spec: the pointer-rollover bit in control 2. -/
def QMC_ROL_PNT : Nat := 6

/-- Modelled from the spec: the interrupt-enable bit in control 2. -/
def QMC_INT_ENB : Nat := 0

/-- Modelled from the spec: the `QMC_STANDBY` mode value (standby is the
all-zero power-on mode). -/
def QMC_STANDBY : Nat := 0

/-- `struct qmc_cfg`: the magnetometer configuration, all fields `uint8_t`
in the C struct (values kept as `Nat`, truncated where the code packs
them).  `control0`/`control1` embed the C array `control[2]`. -/
structure qmc_cfg where
  mode : Nat
  ODR : Nat
  OSR : Nat
  scale : Nat
  pointerRoll : Nat
  enableInterrupt : Nat
  control0 : Nat
  control1 : Nat
  deriving Repr, DecidableEq

/-- `qmc_t`: the per-chip session; the bus handle is passed explicitly to
each operation, so only the cached configuration remains. -/
structure qmc_t where
  config : qmc_cfg
  deriving Repr, DecidableEq

/-- `struct qmc_status`: the decoded status flags. -/
structure qmc_status where
  dataReady : Bool
  dataOverflow : Bool
  dataSkip : Bool
  deriving Repr, DecidableEq

/-- `QMCWriteByte` (qmc5883l.c:4-11): one addressed write of
`[reg, value]`, two bytes. -/
def QMCWriteByte {σ : Type} (dev : I2CDev σ) (s : σ) (reg value : Nat) :
    σ × Int :=
  dev.write s [reg % 256, value % 256]

/-- `QMCReadBytes` (qmc5883l.c:14-21): writes the register selector —
its result is not inspected — then reads `len` bytes; the caller sees
only the read's result. -/
def QMCReadBytes {σ : Type} (dev : I2CDev σ) (s : σ) (reg len : Nat) :
    σ × Int × List Nat :=
  let sel := dev.write s [reg % 256]
  dev.read sel.1 len

/-- The packing of control register 1 in `QMCSetCfg` (qmc5883l.c:90-93),
truncated to a `uint8_t`. -/
def qmcPackCtrl0 (config : qmc_cfg) : Nat :=
  (config.mode <<< QMC_MODE_SHIFT |||
   config.ODR <<< QMC_ODR_SHIFT |||
   config.OSR <<< QMC_OSR_SHIFT |||
   config.scale <<< QMC_SCALE_SHIFT) % 256

/-- The packing of control register 2 in `QMCSetCfg` (qmc5883l.c:95-96). -/
def qmcPackCtrl1 (config : qmc_cfg) : Nat :=
  (config.pointerRoll <<< QMC_ROL_PNT |||
   config.enableInterrupt <<< QMC_INT_ENB) % 256

/-- `QMCSetCfg` (qmc5883l.c:87-114): packs the fields into the two control
bytes, writes each control register separately, commits the cache only
when both writes report 2 bytes, and otherwise returns the numerically
smaller of the two results. -/
def QMCSetCfg {σ : Type} (dev : I2CDev σ) (s : σ) (sensor : qmc_t)
    (config : qmc_cfg) : σ × qmc_t × Int :=
  let c0 := qmcPackCtrl0 config
  let c1 := qmcPackCtrl1 config
  let config := { config with control0 := c0, control1 := c1 }
  let w0 := QMCWriteByte dev s QMC_CONTROL1 c0
  let w1 := QMCWriteByte dev w0.1 QMC_CONTROL2 c1
  if w0.2 = 2 ∧ w1.2 = 2 then
    (w1.1, { sensor with config := config }, 0)
  else
    (w1.1, sensor, if w0.2 < w1.2 then w0.2 else w1.2)

/-- `QMCGetCfg` (qmc5883l.c:123-151): two separate one-byte reads of the
control registers; on success decodes ODR/OSR/mode/scale from the first
byte into the session cache and reports `QMC_ERROR_INVALID` when a
reserved bit (`0x22` mask) is set; otherwise returns the numerically
smaller of the two read results. -/
def QMCGetCfg {σ : Type} (dev : I2CDev σ) (s : σ) (sensor : qmc_t) :
    σ × qmc_t × Int :=
  let r0 := QMCReadBytes dev s QMC_CONTROL1 1
  let r1 := QMCReadBytes dev r0.1 QMC_CONTROL2 1
  if r0.2.1 = 1 ∧ r1.2.1 = 1 then
    let byte0 := r0.2.2.getD 0 0 % 256
    let cfg := { sensor.config with
      ODR := byte0 >>> QMC_ODR_SHIFT % 4
      OSR := byte0 >>> QMC_OSR_SHIFT % 4
      mode := byte0 % 2
      scale := byte0 >>> QMC_SCALE_SHIFT % 2 }
    let invalid := byte0 &&& 0x22 ≠ 0
    (r1.1, { sensor with config := cfg },
      if invalid then QMC_ERROR_INVALID else QMC_OK)
  else
    (r1.1, sensor, if r0.2.1 < r1.2.1 then r0.2.1 else r1.2.1)

/-- `QMCTest` (qmc5883l.c:42-58): `QMCGetCfg`, then `QMC_OK` when the
chip is configured and not on standby, `QMC_ERROR_STANDBY` when it idles,
and the `QMCGetCfg` status otherwise. -/
def QMCTest {σ : Type} (dev : I2CDev σ) (s : σ) (sensor : qmc_t) :
    σ × qmc_t × Int :=
  let g := QMCGetCfg dev s sensor
  if g.2.2 = 0 then
    if g.2.1.config.mode ≠ QMC_STANDBY then (g.1, g.2.1, QMC_OK)
    else (g.1, g.2.1, QMC_ERROR_STANDBY)
  else
    (g.1, g.2.1, g.2.2)

/-- `QMCGetStatus` (qmc5883l.c:65-79): one status-byte read; on a 1-byte
count the three flags are the fixed bit positions, otherwise a bus result
of `-1` maps to `QMC_ERROR_TIMEOUT` and anything else to
`QMC_ERROR_GENERIC`.  The caller's `status` is untouched on failure. -/
def QMCGetStatus {σ : Type} (dev : I2CDev σ) (s : σ) (status : qmc_status) :
    σ × qmc_status × Int :=
  let r := QMCReadBytes dev s QMC_STATUS 1
  let reg := r.2.2.getD 0 0 % 256
  if r.2.1 = 1 then
    (r.1, ⟨reg &&& 1 <<< QMC_DRDY ≠ 0, reg &&& 1 <<< QMC_DOVL ≠ 0,
      reg &&& 1 <<< QMC_DSKIP ≠ 0⟩, 0)
  else
    (r.1, status, if r.2.1 = -1 then QMC_ERROR_TIMEOUT else QMC_ERROR_GENERIC)

/-- An `int16_t` from its unsigned bit pattern. -/
def toInt16 (n : Nat) : Int :=
  if n % 65536 < 32768 then (n % 65536 : Int) else (n % 65536 : Int) - 65536

/-- `QMCGetMag` (qmc5883l.c:160-174): one 6-byte burst read from the X
output register; when exactly 6 bytes arrive the three little-endian pairs
are stored into the caller's array (`data` is in-out here).  The returned
status is literally `i2cState == QMC_ERROR_TIMEOUT ? QMC_ERROR_TIMEOUT :
QMC_ERROR_GENERIC` — the success path has no return of its own. -/
def QMCGetMag {σ : Type} (dev : I2CDev σ) (s : σ) (data : Int × Int × Int) :
    σ × (Int × Int × Int) × Int :=
  let r := QMCReadBytes dev s QMC_XOUT_LSB 6
  let b := fun i => r.2.2.getD i 0 % 256
  let data :=
    if r.2.1 = 6 then
      (toInt16 (b 0 ||| b 1 <<< 8), toInt16 (b 2 ||| b 3 <<< 8),
       toInt16 (b 4 ||| b 5 <<< 8))
    else data
  (r.1, data,
    if r.2.1 = QMC_ERROR_TIMEOUT then QMC_ERROR_TIMEOUT else QMC_ERROR_GENERIC)

/-! ## An ideal chip for the set/get round trip

Claim C2 speaks of `setConfig` followed by `getConfig` "on an unchanged
chip": the harness below is a register file behind a faultless bus, the
single point where the two calls meet. -/

/-- The register file and current register pointer of an ideal QMC5883L. -/
structure QMCChipState where
  regs : Nat → Nat
  ptr : Nat

/-- Store a byte list at consecutive register addresses. -/
def qmcStoreFrom (regs : Nat → Nat) (addr : Nat) : List Nat → (Nat → Nat)
  | [] => regs
  | v :: vs => qmcStoreFrom (fun r => if r = addr then v % 256 else regs r)
      (addr + 1) vs

/-- Modelled from the spec: an ideal, error-free QMC5883L on the bus (the
bus hardware is outside the staged sources).  A write's first byte selects
the register and the remaining bytes land at consecutive addresses; a read
delivers `len` bytes from the selected register onward; every transfer
reports its full byte count (§4.1). -/
def qmcChip : I2CDev QMCChipState :=
  { write := fun st bytes =>
      match bytes with
      | [] => (st, 0)
      | reg :: vals =>
          (⟨qmcStoreFrom st.regs (reg % 256) vals, reg % 256⟩,
           Int.ofNat bytes.length)
    read := fun st len =>
      (st, Int.ofNat len,
       (List.range len).map fun i => st.regs (st.ptr + i) % 256) }

/-! ## HP203B barometer

`hp203b.h` is among the staged sources; `hp203b.c` is not, so the three
operations the claims need are modelled from the header's contracts and
the spec (§4.2). -/

/-- `HP203_OK` (hp203b.h:41). -/
def HP203_OK : Int := 0

/-- `HP203_ERROR_TIMEOUT` (hp203b.h:42). -/
def HP203_ERROR_TIMEOUT : Int := -1

/-- `HP203_ERROR_GENERIC` (hp203b.h:43). -/
def HP203_ERROR_GENERIC : Int := -2

/-- `HP203_ERROR_BADCHIP` (hp203b.h:44). -/
def HP203_ERROR_BADCHIP : Int := -3

/-- `HP203_ADC_SET` (hp203b.h:30). -/
def HP203_ADC_SET : Nat := 0x40

/-- `HP203_READ_P` (hp203b.h:27). -/
def HP203_READ_P : Nat := 0x30

/-- `HP203_RESET` (hp203b.h:24). -/
def HP203_RESET : Nat := 0x06

/-- `HP203_OSR_SHIFT` (hp203b.h:38). -/
def HP203_OSR_SHIFT : Nat := 2

/-- The `enum HP203_OSR` codes (hp203b.h:54-62): code 0 is the highest
rate 4096, code 5 the lowest rate 128; each next code halves the rate. -/
def HP203_OSR_4096 : Nat := 0x00

/-- The lowest oversample rate, 128 (hp203b.h:61). -/
def HP203_OSR_128 : Nat := 0x05

/-- Modelled from the spec: the expected conversion time in µs returned by
`HP203Measure` (hp203b.c is missing from the staged sources).  §4.2: "The
returned expected duration is a monotonically increasing function of
oversample rate (higher oversampling ⇒ longer conversion)"; conversion
time halves with the rate, from the full-rate time at code 0 down to
code 5. -/
def hp203ConvTime (osr : Nat) : Int := 131100 / (2 ^ osr : Int)

/-- The pico-sdk error mapping the header documents for every HP203
operation: bus `-1` is a timeout, anything else a generic error. -/
def hp203MapErr (r : Int) : Int :=
  if r = -1 then HP203_ERROR_TIMEOUT else HP203_ERROR_GENERIC

/-- Modelled from the spec: `HP203Measure` (hp203b.c is missing).  §4.2:
"encodes channel and oversample rate into a single command byte and issues
it"; the rate occupies the fixed shift within the ADC-set command (§6); on
a full 1-byte write it returns the expected measurement time in µs
(hp203b.h:88-93), otherwise timeout maps through and anything else
collapses to generic. -/
def HP203Measure {σ : Type} (dev : I2CDev σ) (s : σ)
    (channel OSR : Nat) : σ × Int :=
  let cmd := (HP203_ADC_SET ||| OSR <<< HP203_OSR_SHIFT ||| channel) % 256
  let w := dev.write s [cmd]
  if w.2 = 1 then (w.1, hp203ConvTime OSR)
  else (w.1, hp203MapErr w.2)

/-- Modelled from the spec: `HP203Test` (hp203b.c is missing).  §4.2: a
presence/sanity probe; `HP203_ERROR_BADCHIP` signals a response
inconsistent with the chip's identity, distinct from a timeout
(hp203b.h:78-86); every bus timeout maps straight through (§4.2 "every
operation maps bus-layer TimeoutError straight through"). -/
def HP203Test {σ : Type} (dev : I2CDev σ) (s : σ) : σ × Int :=
  let w := dev.write s [HP203_RESET % 256]
  if w.2 = 1 then
    let r := dev.read w.1 1
    if r.2.1 = 1 then
      if r.2.2.getD 0 0 % 256 &&& 0x40 = 0 then (r.1, HP203_OK)
      else (r.1, HP203_ERROR_BADCHIP)
    else (r.1, hp203MapErr r.2.1)
  else (w.1, hp203MapErr w.2)

/-- Modelled from the spec: `HP203GetPres` (hp203b.c is missing).  Issues
the read-pressure command and reads the 3-byte big-endian result in
pascals (hp203b.h:95-100); the caller's `result` is untouched on failure;
timeout maps straight through, anything else is generic (§4.2). -/
def HP203GetPres {σ : Type} (dev : I2CDev σ) (s : σ) (result : Nat) :
    σ × Nat × Int :=
  let w := dev.write s [HP203_READ_P % 256]
  if w.2 = 1 then
    let r := dev.read w.1 3
    let b := fun i => r.2.2.getD i 0 % 256
    if r.2.1 = 3 then
      (r.1, (b 0 <<< 16 ||| b 1 <<< 8 ||| b 2) % 2 ^ 32 % 2 ^ 20, HP203_OK)
    else (r.1, result, hp203MapErr r.2.1)
  else (w.1, result, hp203MapErr w.2)

/-- A bus stub on which every transfer reports a timeout (`-1`) and no
byte is delivered: the stub of claim C9. -/
def timeoutStub : I2CDev Unit :=
  { write := fun _ _ => ((), -1)
    read := fun _ _ => ((), -1, []) }

/-! ## The UART line framer (hat.cpp `uartRX`)

`uartRX` (hat.cpp:138-158) is an interrupt handler over three statics:
`copying`, `index` and the two 80-byte buffers `uartBuf` and `frameBuf`.
The embedding processes one received byte per step.  `strstr(uartBuf,
"GGA")` scans the buffer as a C string — up to its first NUL byte,
including any stale bytes beyond the current sentence. -/

/-- `MINMEA_MAX_SENTENCE_LENGTH` (hat.cpp:40). -/
def MINMEA_MAX_SENTENCE_LENGTH : Nat := 80

/-- The statics of `uartRX` plus the shared published buffer. -/
structure UartState where
  copying : Bool
  index : Nat
  uartBuf : List Nat
  frameBuf : List Nat
  deriving Repr, DecidableEq

/-- The boot state: `copying = false`, `index = 0`, both buffers
zero-initialised at their fixed capacity (C statics). -/
def uartInitState : UartState :=
  ⟨false, 0, List.replicate MINMEA_MAX_SENTENCE_LENGTH 0,
   List.replicate MINMEA_MAX_SENTENCE_LENGTH 0⟩

/-- Whether `needle` occurs as a contiguous run inside `hay`
(the occurrence check of `strstr`). -/
def containsSeq (needle : List Nat) : List Nat → Bool
  | [] => needle == []
  | b :: rest => needle.isPrefixOf (b :: rest) || containsSeq needle rest

/-- The scanned portion of the buffer: `strstr` reads `uartBuf` as a
C string, stopping at the first NUL. -/
def cScan (buf : List Nat) : List Nat := buf.takeWhile (fun b => b != 0)

/-- `strstr(uartBuf, "GGA") != NULL`: "GGA" = bytes 71,71,65. -/
def hasGGA (buf : List Nat) : Bool := containsSeq [71, 71, 65] (cScan buf)

/-- One step of `uartRX` (hat.cpp:138-158) on a received byte, paired
with the list of in-progress-buffer indices it writes: `'$'` (36) re-arms
the capture and resets the index; while capturing below capacity the byte
is stored and, on `'\n'` (10) with the type marker found by `strstr`, the
whole in-progress buffer is copied into the published frame. -/
def uartRXStep (st : UartState) (ch : Nat) : UartState × List Nat :=
  let st := if ch = 36 then { st with copying := true, index := 0 } else st
  if st.copying ∧ st.index < MINMEA_MAX_SENTENCE_LENGTH then
    let buf := st.uartBuf.set st.index ch
    ({ copying := st.copying, index := st.index + 1, uartBuf := buf,
       frameBuf := if ch = 10 ∧ hasGGA buf then buf else st.frameBuf },
     [st.index])
  else
    (st, [])

/-- The state after one `uartRX` invocation. -/
def uartRXByte (st : UartState) (ch : Nat) : UartState :=
  (uartRXStep st ch).1

/-- The indices of the in-progress buffer written by one invocation. -/
def uartRXWrites (st : UartState) (ch : Nat) : List Nat :=
  (uartRXStep st ch).2

/-- Feeding a byte sequence, one interrupt per byte. -/
def uartRXFeed (st : UartState) (bytes : List Nat) : UartState :=
  bytes.foldl uartRXByte st

/-! ## The telemetry packet (hat.cpp `struct packet`)

`struct packet` (hat.cpp:57-80) is `#pragma pack(1)`: the wire bytes are
the fields in declaration order, little-endian (RP2040), no padding.
`hatTask` transmits exactly `sizeof(struct packet)` bytes of it
(hat.cpp:122-124). -/

/-- `struct packet` (hat.cpp:57-80) with mathematical field types;
unsigned fields are `Nat`, signed ones `Int`. -/
structure packet where
  seq_no : Nat
  vid : Nat
  state : Nat
  time_ms : Nat
  time_utc0 : Nat
  time_utc1 : Nat
  time_utc2 : Nat
  lat : Int
  lng : Int
  sat : Nat
  pres : Nat
  temp : Int
  accl0 : Int
  accl1 : Int
  accl2 : Int
  gyro0 : Int
  gyro1 : Int
  gyro2 : Int
  deriving Repr, DecidableEq

/-- The four little-endian bytes of a `uint32_t`. -/
def le4 (v : Nat) : List Nat :=
  [v % 256, v / 256 % 256, v / 256 ^ 2 % 256, v / 256 ^ 3 % 256]

/-- The two little-endian bytes of a `uint16_t`. -/
def le2 (v : Nat) : List Nat := [v % 256, v / 256 % 256]

/-- The 32-bit two's-complement pattern of an `int32_t` value. -/
def twos32 (v : Int) : Nat := (v % (2 ^ 32 : Int)).toNat

/-- The 16-bit two's-complement pattern of an `int16_t` value. -/
def twos16 (v : Int) : Nat := (v % (2 ^ 16 : Int)).toNat

/-- The `int32_t` value of a 32-bit two's-complement pattern. -/
def sign32 (n : Nat) : Int :=
  if n % 2 ^ 32 < 2 ^ 31 then (n % 2 ^ 32 : Int)
  else (n % 2 ^ 32 : Int) - 2 ^ 32

/-- The `int16_t` value of a 16-bit two's-complement pattern. -/
def sign16 (n : Nat) : Int :=
  if n % 2 ^ 16 < 2 ^ 15 then (n % 2 ^ 16 : Int)
  else (n % 2 ^ 16 : Int) - 2 ^ 16

/-- The value of four little-endian bytes. -/
def le4val (b0 b1 b2 b3 : Nat) : Nat :=
  b0 % 256 + 256 * (b1 % 256) + 256 ^ 2 * (b2 % 256) + 256 ^ 3 * (b3 % 256)

/-- The value of two little-endian bytes. -/
def le2val (b0 b1 : Nat) : Nat := b0 % 256 + 256 * (b1 % 256)

/-- The wire image of `struct packet` (hat.cpp:57-80): each field's
little-endian bytes in declaration order, `#pragma pack(1)` so nothing in
between; `sizeof(struct packet)` = 40 bytes exactly (hat.cpp:123). -/
def encodePacket (p : packet) : List Nat :=
  le4 p.seq_no ++ [p.vid % 256] ++ [p.state % 256] ++ le4 p.time_ms ++
  [p.time_utc0 % 256] ++ [p.time_utc1 % 256] ++ [p.time_utc2 % 256] ++
  le4 (twos32 p.lat) ++ le4 (twos32 p.lng) ++ [p.sat % 256] ++
  le4 p.pres ++ le2 (twos16 p.temp) ++
  le2 (twos16 p.accl0) ++ le2 (twos16 p.accl1) ++ le2 (twos16 p.accl2) ++
  le2 (twos16 p.gyro0) ++ le2 (twos16 p.gyro1) ++ le2 (twos16 p.gyro2)

/-- Modelled from the spec: the decoder of the wire layout (the receiving
ground station is not part of this repository; §6 fixes the layout
"packed, fixed order, no padding" and §9 asks for explicit field-by-field
decode routines).  Reads each field back from its fixed offset; anything
shorter than one packet decodes to the all-zero packet. -/
def decodePacket (bs : List Nat) : packet :=
  match bs with
  | q0 :: q1 :: q2 :: q3 :: vn :: sn :: t0 :: t1 :: t2 :: t3 ::
    u0 :: u1 :: u2 :: la0 :: la1 :: la2 :: la3 :: ln0 :: ln1 :: ln2 :: ln3 ::
    sa :: pq0 :: pq1 :: pq2 :: pq3 :: te0 :: te1 ::
    ax0 :: ax1 :: ay0 :: ay1 :: az0 :: az1 ::
    gx0 :: gx1 :: gy0 :: gy1 :: gz0 :: gz1 :: _ =>
      { seq_no := le4val q0 q1 q2 q3
        vid := vn % 256
        state := sn % 256
        time_ms := le4val t0 t1 t2 t3
        time_utc0 := u0 % 256
        time_utc1 := u1 % 256
        time_utc2 := u2 % 256
        lat := sign32 (le4val la0 la1 la2 la3)
        lng := sign32 (le4val ln0 ln1 ln2 ln3)
        sat := sa % 256
        pres := le4val pq0 pq1 pq2 pq3
        temp := sign16 (le2val te0 te1)
        accl0 := sign16 (le2val ax0 ax1)
        accl1 := sign16 (le2val ay0 ay1)
        accl2 := sign16 (le2val az0 az1)
        gyro0 := sign16 (le2val gx0 gx1)
        gyro1 := sign16 (le2val gy0 gy1)
        gyro2 := sign16 (le2val gz0 gz1) }
  | _ => ⟨0, 0, 0, 0, 0, 0, 0, 0, 0, 0, 0, 0, 0, 0, 0, 0, 0, 0⟩

/-! ## Concrete harness devices -/

/-- A session with an all-zero cached configuration. -/
def sensor0 : qmc_t := ⟨⟨0, 0, 0, 0, 0, 0, 0, 0⟩⟩

/-- A device on which every transfer succeeds in full and every read
delivers the magnetometer bytes `[1,0,2,0,3,0]` (x=1, y=2, z=3
little-endian): the happy path of `QMCGetMag`. -/
def qmcOkMagDev : I2CDev Unit :=
  { write := fun _ bs => ((), Int.ofNat bs.length)
    read := fun _ len => ((), Int.ofNat len, [1, 0, 2, 0, 3, 0].take len) }

/-- A device whose register-selector writes all fail with a timeout while
every read succeeds and delivers the byte 5. -/
def qmcSelFailDev : I2CDev Unit :=
  { write := fun _ _ => ((), -1)
    read := fun _ len => ((), Int.ofNat len, List.replicate len 5) }

/-- A device on which both control-register reads succeed and deliver the
byte `0x22` (both reserved bits set, every field bit clear). -/
def qmcReservedDev : I2CDev Unit :=
  { write := fun _ _ => ((), 1)
    read := fun _ len => ((), Int.ofNat len, List.replicate len 0x22) }

/-- A device on which every one-byte command write succeeds. -/
def hpOkWriteDev : I2CDev Unit :=
  { write := fun _ bs => ((), Int.ofNat bs.length)
    read := fun _ len => ((), Int.ofNat len, List.replicate len 0) }

/-- An ideal chip whose registers all read zero at boot. -/
def chip0 : QMCChipState := ⟨fun _ => 0, 0⟩

/-- A sample in-range configuration: continuous mode, ODR code 2,
OSR code 3, scale code 1. -/
def cfgSample : qmc_cfg := ⟨1, 2, 3, 1, 0, 0, 0, 0⟩

/-- The literal telemetry field set of claim C6: seq_no 7, vehicle 3,
state 'R' (82), lat -33123, lng 151456, 6 satellites, 101325 Pa,
21.50 °C, accel [1,2,3], gyro [4,5,6]. -/
def pktSample : packet :=
  ⟨7, 3, 82, 123456, 11, 22, 33, -33123, 151456, 6, 101325, 2150,
   1, 2, 3, 4, 5, 6⟩

/-- The bytes of the claim C4 sentence `"$..GGA...,*29\r\n"`:
`'$'`, two dots, the type marker `GGA`, three dots, comma, `*29`,
carriage return, line feed. -/
def ggaSentence : List Nat :=
  [36, 46, 46, 71, 71, 65, 46, 46, 46, 44, 42, 50, 57, 13, 10]

/-- The bytes of `"$AAAAGGA*29\r\n"`: a complete sentence whose bytes
contain the type marker. -/
def cexFirst : List Nat :=
  [36, 65, 65, 65, 65, 71, 71, 65, 42, 50, 57, 13, 10]

/-- The bytes of `"$B\n"`: a complete sentence whose bytes do not contain
the type marker. -/
def cexSecond : List Nat := [36, 66, 10]

/-! ## Claim theorems -/

/-- C1 (code bug): on a device whose 6-byte burst read reports exactly 6
bytes, `QMCGetMag` does store the three little-endian vector components,
but still returns `QMC_ERROR_GENERIC` instead of `QMC_OK`: the function's
final statement maps every non-timeout bus result — the successful count 6
included — to `QMC_ERROR_GENERIC`, contradicting its own contract
"QMC_OK if successful" (qmc5883l.c:157) and the spec's
`getVector(session) -> (x,y,z) | TimeoutError | GenericError`. -/
theorem QMCGetMag_success_returns_generic :
    (QMCGetMag qmcOkMagDev () (0, 0, 0)).2 = ((1, 2, 3), QMC_ERROR_GENERIC) ∧
      QMC_ERROR_GENERIC ≠ QMC_OK := by
  constructor
  · decide
  · decide

/-- C3: `QMCSetCfg` commits the session cache exactly when both
control-register writes report 2 bytes — the cache then holds the packed
configuration — and in every other case the session is untouched and the
numerically smaller (worse) of the two write results is returned. -/
theorem QMCSetCfg_atomic {σ : Type} (dev : I2CDev σ) (s : σ)
    (sensor : qmc_t) (cfg : qmc_cfg) :
    ((QMCWriteByte dev s QMC_CONTROL1 (qmcPackCtrl0 cfg)).2 = 2 ∧
        (QMCWriteByte dev (QMCWriteByte dev s QMC_CONTROL1 (qmcPackCtrl0 cfg)).1
          QMC_CONTROL2 (qmcPackCtrl1 cfg)).2 = 2 →
      (QMCSetCfg dev s sensor cfg).2.1.config =
          { cfg with control0 := qmcPackCtrl0 cfg, control1 := qmcPackCtrl1 cfg } ∧
        (QMCSetCfg dev s sensor cfg).2.2 = QMC_OK) ∧
    (¬ ((QMCWriteByte dev s QMC_CONTROL1 (qmcPackCtrl0 cfg)).2 = 2 ∧
        (QMCWriteByte dev (QMCWriteByte dev s QMC_CONTROL1 (qmcPackCtrl0 cfg)).1
          QMC_CONTROL2 (qmcPackCtrl1 cfg)).2 = 2) →
      (QMCSetCfg dev s sensor cfg).2.1 = sensor ∧
        (QMCSetCfg dev s sensor cfg).2.2 =
          min (QMCWriteByte dev s QMC_CONTROL1 (qmcPackCtrl0 cfg)).2
            (QMCWriteByte dev (QMCWriteByte dev s QMC_CONTROL1 (qmcPackCtrl0 cfg)).1
              QMC_CONTROL2 (qmcPackCtrl1 cfg)).2) := by
  constructor
  · intro h
    simp only [QMCSetCfg, if_pos h]
    exact ⟨trivial, rfl⟩
  · intro h
    simp only [QMCSetCfg, if_neg h]
    refine ⟨trivial, ?_⟩
    rw [min_def]
    split_ifs <;> omega

/-- C7: when both control-register reads return pico-sdk results
(a count or `-1`/`-2`), `QMCGetCfg` reports `QMC_ERROR_INVALID` exactly
when both one-byte reads succeed and the raw control-1 byte has a
reserved bit (`0x22` mask) set, whatever the other bits; and
`QMC_ERROR_INVALID` is distinct from both bus-failure codes. -/
theorem QMCGetCfg_invalid_iff_reserved {σ : Type} (dev : I2CDev σ) (s : σ)
    (sensor : qmc_t)
    (h0 : validBusResult 1 (QMCReadBytes dev s QMC_CONTROL1 1).2.1)
    (h1 : validBusResult 1
      (QMCReadBytes dev (QMCReadBytes dev s QMC_CONTROL1 1).1 QMC_CONTROL2 1).2.1) :
    ((QMCGetCfg dev s sensor).2.2 = QMC_ERROR_INVALID ↔
      (QMCReadBytes dev s QMC_CONTROL1 1).2.1 = 1 ∧
        (QMCReadBytes dev (QMCReadBytes dev s QMC_CONTROL1 1).1 QMC_CONTROL2 1).2.1 = 1 ∧
        (QMCReadBytes dev s QMC_CONTROL1 1).2.2.getD 0 0 % 256 &&& 0x22 ≠ 0) ∧
      QMC_ERROR_INVALID ≠ QMC_ERROR_TIMEOUT ∧ QMC_ERROR_INVALID ≠ QMC_ERROR_GENERIC := by
  refine ⟨?_, by decide, by decide⟩
  by_cases hc : (QMCReadBytes dev s QMC_CONTROL1 1).2.1 = 1 ∧
      (QMCReadBytes dev (QMCReadBytes dev s QMC_CONTROL1 1).1 QMC_CONTROL2 1).2.1 = 1
  · have hval : (QMCGetCfg dev s sensor).2.2 =
        if (QMCReadBytes dev s QMC_CONTROL1 1).2.2.getD 0 0 % 256 &&& 0x22 ≠ 0
        then QMC_ERROR_INVALID else QMC_OK := by
      simp only [QMCGetCfg, if_pos hc]
    rw [hval]
    by_cases hres : (QMCReadBytes dev s QMC_CONTROL1 1).2.2.getD 0 0 % 256 &&& 0x22 ≠ 0
    · rw [if_pos hres]
      exact ⟨fun _ => ⟨hc.1, hc.2, hres⟩, fun _ => rfl⟩
    · rw [if_neg hres]
      exact ⟨fun habs => absurd habs (by decide), fun habs => absurd habs.2.2 hres⟩
  · have hval : (QMCGetCfg dev s sensor).2.2 =
        if (QMCReadBytes dev s QMC_CONTROL1 1).2.1 <
            (QMCReadBytes dev (QMCReadBytes dev s QMC_CONTROL1 1).1 QMC_CONTROL2 1).2.1
        then (QMCReadBytes dev s QMC_CONTROL1 1).2.1
        else (QMCReadBytes dev (QMCReadBytes dev s QMC_CONTROL1 1).1 QMC_CONTROL2 1).2.1 := by
      simp only [QMCGetCfg, if_neg hc]
    rw [hval]
    constructor
    · intro habs
      unfold validBusResult at h0 h1
      rw [show QMC_ERROR_INVALID = (-3 : Int) from rfl] at habs
      split at habs <;> omega
    · intro habs; exact absurd ⟨habs.1, habs.2.1⟩ hc

/-- C7 witness: on a device delivering the raw byte `0x22` from both
successful control reads, `QMCGetCfg` reports `QMC_ERROR_INVALID`. -/
theorem QMCGetCfg_invalid_iff_reserved_witness :
    (QMCGetCfg qmcReservedDev () sensor0).2.2 = QMC_ERROR_INVALID :=
  ((QMCGetCfg_invalid_iff_reserved qmcReservedDev () sensor0 (by decide)
    (by decide)).1).mpr ⟨by decide, by decide, by decide⟩

/-- C10: `QMCReadBytes` discards the register-selector write's result:
the count-and-data pair the caller sees is exactly what the data-read
phase reports, whatever the selector write returned — so with the
selector write timing out and the data read succeeding, `QMCGetStatus`
reports success. -/
theorem QMCReadBytes_selector_result_discarded {σ : Type} (dev : I2CDev σ)
    (s : σ) (status : qmc_status)
    (hw : (dev.write s [QMC_STATUS % 256]).2 = -1)
    (hr : (dev.read (dev.write s [QMC_STATUS % 256]).1 1).2.1 = 1) :
    (∀ reg len, (QMCReadBytes dev s reg len).2 =
        (dev.read (dev.write s [reg % 256]).1 len).2) ∧
      (QMCGetStatus dev s status).2.2 = QMC_OK := by
  refine ⟨fun reg len => rfl, ?_⟩
  simp only [QMCGetStatus, QMCReadBytes]
  rw [if_pos hr]
  rfl

/-- C10 witness: on a device whose selector writes all time out while
reads succeed, `QMCGetStatus` still reports success. -/
theorem QMCReadBytes_selector_result_discarded_witness :
    (QMCGetStatus qmcSelFailDev () ⟨false, false, false⟩).2.2 = QMC_OK :=
  (QMCReadBytes_selector_result_discarded qmcSelFailDev ()
    ⟨false, false, false⟩ (by decide) (by decide)).2

/-- C9: against a bus on which every transfer reports a timeout, the two
self tests and the two data reads all report the timeout error — never
the generic one. -/
theorem all_timeout_stub_propagates {σ τ : Type} (devQ : I2CDev σ)
    (devH : I2CDev τ) (sq : σ) (th : τ) (sensor : qmc_t)
    (data : Int × Int × Int) (pres : Nat)
    (hqw : ∀ s bs, (devQ.write s bs).2 = -1)
    (hqr : ∀ s len, (devQ.read s len).2.1 = -1)
    (hhw : ∀ t bs, (devH.write t bs).2 = -1)
    (hhr : ∀ t len, (devH.read t len).2.1 = -1) :
    (QMCTest devQ sq sensor).2.2 = QMC_ERROR_TIMEOUT ∧
      (QMCGetMag devQ sq data).2.2 = QMC_ERROR_TIMEOUT ∧
      (HP203Test devH th).2 = HP203_ERROR_TIMEOUT ∧
      (HP203GetPres devH th pres).2.2 = HP203_ERROR_TIMEOUT := by
  refine ⟨?_, ?_, ?_, ?_⟩
  · simp [QMCTest, QMCGetCfg, QMCReadBytes, hqr, QMC_ERROR_TIMEOUT]
  · simp [QMCGetMag, QMCReadBytes, hqr, QMC_ERROR_TIMEOUT]
  · simp [HP203Test, hhw, hp203MapErr, HP203_ERROR_TIMEOUT]
  · simp [HP203GetPres, hhw, hp203MapErr, HP203_ERROR_TIMEOUT]

/-- C9 witness: the all-timeout stub itself. -/
theorem all_timeout_stub_propagates_witness :
    (QMCTest timeoutStub () sensor0).2.2 = QMC_ERROR_TIMEOUT ∧
      (QMCGetMag timeoutStub () (0, 0, 0)).2.2 = QMC_ERROR_TIMEOUT ∧
      (HP203Test timeoutStub ()).2 = HP203_ERROR_TIMEOUT ∧
      (HP203GetPres timeoutStub () 0).2.2 = HP203_ERROR_TIMEOUT :=
  all_timeout_stub_propagates timeoutStub timeoutStub () () sensor0 (0, 0, 0) 0
    (fun _ _ => rfl) (fun _ _ => rfl) (fun _ _ => rfl) (fun _ _ => rfl)

/-- C8: for any two valid oversample codes with `osr₂` the lower rate
(codes `0..5` stand for rates `4096..128`), a successful
`HP203Measure` returns a strictly positive expected duration, and the
lower rate's duration never exceeds the higher rate's: the duration is
monotonically non-decreasing in the rate. -/
theorem HP203Measure_positive_mono {σ : Type} (dev : I2CDev σ) (s s2 : σ)
    (channel osr osr2 : Nat) (h5 : osr ≤ 5) (h5' : osr2 ≤ 5) (hle : osr ≤ osr2)
    (hw : (dev.write s
      [(HP203_ADC_SET ||| osr <<< HP203_OSR_SHIFT ||| channel) % 256]).2 = 1)
    (hw2 : (dev.write s2
      [(HP203_ADC_SET ||| osr2 <<< HP203_OSR_SHIFT ||| channel) % 256]).2 = 1) :
    0 < (HP203Measure dev s channel osr).2 ∧
      (HP203Measure dev s2 channel osr2).2 ≤ (HP203Measure dev s channel osr).2 := by
  simp only [HP203Measure, if_pos hw, if_pos hw2]
  constructor
  · interval_cases osr <;> decide
  · interval_cases osr <;> interval_cases osr2 <;> decide

/-- C8 witness: on a device accepting every command, measuring at the
highest rate code 0 (4096) is positive and at the lowest rate 128 takes
no longer. -/
theorem HP203Measure_positive_mono_witness :
    0 < (HP203Measure hpOkWriteDev () 0 HP203_OSR_4096).2 ∧
      (HP203Measure hpOkWriteDev () 0 HP203_OSR_128).2 ≤
        (HP203Measure hpOkWriteDev () 0 HP203_OSR_4096).2 :=
  HP203Measure_positive_mono hpOkWriteDev () () 0 HP203_OSR_4096 HP203_OSR_128
    (by decide) (by decide) (by decide) (by decide) (by decide)

/-- The decode-of-pack arithmetic behind the C2 round trip: a control-1
byte packed from in-range fields decodes to the same fields and has both
reserved bits clear. -/
theorem qmc_ctrl0_decode (m o r c : Nat) (hm : m < 2) (ho : o < 4)
    (hr : r < 4) (hc : c < 2) :
    ((m <<< QMC_MODE_SHIFT ||| o <<< QMC_ODR_SHIFT ||| r <<< QMC_OSR_SHIFT |||
        c <<< QMC_SCALE_SHIFT) % 256) % 2 = m ∧
      ((m <<< QMC_MODE_SHIFT ||| o <<< QMC_ODR_SHIFT ||| r <<< QMC_OSR_SHIFT |||
        c <<< QMC_SCALE_SHIFT) % 256) >>> QMC_ODR_SHIFT % 4 = o ∧
      ((m <<< QMC_MODE_SHIFT ||| o <<< QMC_ODR_SHIFT ||| r <<< QMC_OSR_SHIFT |||
        c <<< QMC_SCALE_SHIFT) % 256) >>> QMC_OSR_SHIFT % 4 = r ∧
      ((m <<< QMC_MODE_SHIFT ||| o <<< QMC_ODR_SHIFT ||| r <<< QMC_OSR_SHIFT |||
        c <<< QMC_SCALE_SHIFT) % 256) >>> QMC_SCALE_SHIFT % 2 = c ∧
      ((m <<< QMC_MODE_SHIFT ||| o <<< QMC_ODR_SHIFT ||| r <<< QMC_OSR_SHIFT |||
        c <<< QMC_SCALE_SHIFT) % 256) &&& 0x22 = 0 := by
  interval_cases m <;> interval_cases o <;> interval_cases r <;>
    interval_cases c <;> decide

/-- C2: on an ideal, unchanged chip, `QMCSetCfg` succeeds and an
immediately following `QMCGetCfg` decodes mode, ODR, OSR and scale back
to exactly the values that were set, for every in-range field
combination. -/
theorem QMCSetCfg_getCfg_roundtrip (st : QMCChipState) (sensor : qmc_t)
    (cfg : qmc_cfg) (hm : cfg.mode < 2) (ho : cfg.ODR < 4)
    (hr : cfg.OSR < 4) (hc : cfg.scale < 2) :
    (QMCSetCfg qmcChip st sensor cfg).2.2 = QMC_OK ∧
      (QMCGetCfg qmcChip (QMCSetCfg qmcChip st sensor cfg).1
        (QMCSetCfg qmcChip st sensor cfg).2.1).2.2 = QMC_OK ∧
      (QMCGetCfg qmcChip (QMCSetCfg qmcChip st sensor cfg).1
        (QMCSetCfg qmcChip st sensor cfg).2.1).2.1.config.mode = cfg.mode ∧
      (QMCGetCfg qmcChip (QMCSetCfg qmcChip st sensor cfg).1
        (QMCSetCfg qmcChip st sensor cfg).2.1).2.1.config.ODR = cfg.ODR ∧
      (QMCGetCfg qmcChip (QMCSetCfg qmcChip st sensor cfg).1
        (QMCSetCfg qmcChip st sensor cfg).2.1).2.1.config.OSR = cfg.OSR ∧
      (QMCGetCfg qmcChip (QMCSetCfg qmcChip st sensor cfg).1
        (QMCSetCfg qmcChip st sensor cfg).2.1).2.1.config.scale = cfg.scale := by
  obtain ⟨m, o, r, c, pr, ei, cx0, cx1⟩ := cfg
  obtain ⟨k1, k2, k3, k4, k5⟩ := qmc_ctrl0_decode m o r c hm ho hr hc
  simp only [QMCSetCfg, QMCGetCfg, QMCReadBytes, QMCWriteByte, qmcChip,
    qmcPackCtrl0, qmcPackCtrl1, qmcStoreFrom] at *
  simp [QMC_CONTROL1, QMC_CONTROL2, QMC_OK, k1, k2, k3, k4, k5] at *

/-- C2 witness: the sample configuration round-trips through an
all-zero boot chip. -/
theorem QMCSetCfg_getCfg_roundtrip_witness :
    (QMCSetCfg qmcChip chip0 sensor0 cfgSample).2.2 = QMC_OK ∧
      (QMCGetCfg qmcChip (QMCSetCfg qmcChip chip0 sensor0 cfgSample).1
        (QMCSetCfg qmcChip chip0 sensor0 cfgSample).2.1).2.2 = QMC_OK ∧
      (QMCGetCfg qmcChip (QMCSetCfg qmcChip chip0 sensor0 cfgSample).1
        (QMCSetCfg qmcChip chip0 sensor0 cfgSample).2.1).2.1.config.mode =
        cfgSample.mode ∧
      (QMCGetCfg qmcChip (QMCSetCfg qmcChip chip0 sensor0 cfgSample).1
        (QMCSetCfg qmcChip chip0 sensor0 cfgSample).2.1).2.1.config.ODR =
        cfgSample.ODR ∧
      (QMCGetCfg qmcChip (QMCSetCfg qmcChip chip0 sensor0 cfgSample).1
        (QMCSetCfg qmcChip chip0 sensor0 cfgSample).2.1).2.1.config.OSR =
        cfgSample.OSR ∧
      (QMCGetCfg qmcChip (QMCSetCfg qmcChip chip0 sensor0 cfgSample).1
        (QMCSetCfg qmcChip chip0 sensor0 cfgSample).2.1).2.1.config.scale =
        cfgSample.scale :=
  QMCSetCfg_getCfg_roundtrip chip0 sensor0 cfgSample (by decide) (by decide)
    (by decide) (by decide)

/-- C6: encoding the telemetry packet in its fixed packed order and
decoding it reproduces every field exactly, for all in-range field
values, and the encoded length is the constant 40 for every input. -/
theorem packet_encode_decode_roundtrip (p : packet)
    (h1 : p.seq_no < 2 ^ 32) (h2 : p.vid < 256) (h3 : p.state < 256)
    (h4 : p.time_ms < 2 ^ 32) (h5 : p.time_utc0 < 256)
    (h6 : p.time_utc1 < 256) (h7 : p.time_utc2 < 256)
    (h8 : -2 ^ 31 ≤ p.lat) (h9 : p.lat < 2 ^ 31)
    (h10 : -2 ^ 31 ≤ p.lng) (h11 : p.lng < 2 ^ 31)
    (h12 : p.sat < 256) (h13 : p.pres < 2 ^ 32)
    (h14 : -2 ^ 15 ≤ p.temp) (h15 : p.temp < 2 ^ 15)
    (h16 : -2 ^ 15 ≤ p.accl0) (h17 : p.accl0 < 2 ^ 15)
    (h18 : -2 ^ 15 ≤ p.accl1) (h19 : p.accl1 < 2 ^ 15)
    (h20 : -2 ^ 15 ≤ p.accl2) (h21 : p.accl2 < 2 ^ 15)
    (h22 : -2 ^ 15 ≤ p.gyro0) (h23 : p.gyro0 < 2 ^ 15)
    (h24 : -2 ^ 15 ≤ p.gyro1) (h25 : p.gyro1 < 2 ^ 15)
    (h26 : -2 ^ 15 ≤ p.gyro2) (h27 : p.gyro2 < 2 ^ 15) :
    decodePacket (encodePacket p) = p ∧
      ∀ q : packet, (encodePacket q).length = 40 := by
  refine ⟨?_, fun q => by simp [encodePacket, le4, le2]⟩
  obtain ⟨q, v, sn, t, u0, u1, u2, la, ln, sa, pq, te, ax, ay, az, gx, gy, gz⟩ := p
  dsimp only at *
  simp only [encodePacket, le4, le2, twos32, twos16, List.cons_append,
    List.nil_append, decodePacket, packet.mk.injEq]
  refine ⟨?_, ?_, ?_, ?_, ?_, ?_, ?_, ?_, ?_, ?_, ?_, ?_, ?_, ?_, ?_, ?_, ?_, ?_⟩
  all_goals try simp only [le4val, le2val, sign32, sign16]
  all_goals try split_ifs
  all_goals omega

/-- C6 witness: the claim's literal field set round-trips and encodes to
40 bytes. -/
theorem packet_encode_decode_roundtrip_witness :
    decodePacket (encodePacket pktSample) = pktSample ∧
      ∀ q : packet, (encodePacket q).length = 40 :=
  packet_encode_decode_roundtrip pktSample (by decide) (by decide) (by decide)
    (by decide) (by decide) (by decide) (by decide) (by decide) (by decide)
    (by decide) (by decide) (by decide) (by decide) (by decide) (by decide)
    (by decide) (by decide) (by decide) (by decide) (by decide) (by decide)
    (by decide) (by decide) (by decide) (by decide) (by decide) (by decide)

set_option maxRecDepth 4000

/-! ## Helper lemmas for the line framer -/

/-- A prefix stays a prefix when the larger list is extended. -/
theorem isPrefixOf_extend {n xs ys : List Nat} (h : n.isPrefixOf xs = true) :
    n.isPrefixOf (xs ++ ys) = true := by
  induction n generalizing xs with
  | nil => simp
  | cons a as ih =>
    cases xs with
    | nil => simp at h
    | cons b bs =>
      simp only [List.cons_append, List.isPrefixOf_cons₂, Bool.and_eq_true] at h ⊢
      exact ⟨h.1, ih h.2⟩

/-- An occurrence survives extending the scanned list on the right. -/
theorem containsSeq_extend (n xs ys : List Nat) (h : containsSeq n xs = true) :
    containsSeq n (xs ++ ys) = true := by
  induction xs with
  | nil =>
    simp [containsSeq] at h
    subst h
    cases ys with
    | nil => rfl
    | cons c cs => simp [containsSeq]
  | cons b bs ih =>
    simp only [containsSeq, Bool.or_eq_true] at h ⊢
    rcases h with h | h
    · exact Or.inl (isPrefixOf_extend h)
    · exact Or.inr (ih h)

/-- Trailing NUL bytes are invisible to the C-string scan. -/
theorem cScan_append_replicate (xs : List Nat) (k : Nat) :
    cScan (xs ++ List.replicate k 0) = cScan xs := by
  induction xs with
  | nil =>
    cases k with
    | zero => rfl
    | succ m => simp [cScan, List.replicate_succ, List.takeWhile_cons]
  | cons b bs ih =>
    simp only [cScan, List.cons_append, List.takeWhile_cons] at ih ⊢
    split <;> simp [ih]

/-- The C-string scan is an initial segment of the buffer. -/
theorem cScan_eq_append (xs : List Nat) : ∃ t, cScan xs ++ t = xs := by
  induction xs with
  | nil => exact ⟨[], rfl⟩
  | cons b bs ih =>
    by_cases hb : (b != 0) = true
    · obtain ⟨t, ht⟩ := ih
      refine ⟨t, ?_⟩
      simp only [cScan, List.takeWhile_cons, hb, if_true, List.cons_append]
      simp only [cScan] at ht
      rw [ht]
    · refine ⟨b :: bs, ?_⟩
      simp only [cScan, List.takeWhile_cons, hb, if_false, List.nil_append]
      simp at hb
      simp [hb]

/-- A `'$'` byte re-arms the capture: index 1, `'$'` stored at slot 0,
published frame untouched. -/
theorem uartRXByte_dollar (st : UartState) :
    uartRXByte st 36 = ⟨true, 1, st.uartBuf.set 0 36, st.frameBuf⟩ := rfl

/-- A non-delimiter, non-terminator byte while capturing: stored at the
current index when below capacity, silently dropped otherwise; the
published frame is untouched either way. -/
theorem uartRXByte_mid (st : UartState) (b : Nat) (hb : b ≠ 36) (hn : b ≠ 10)
    (hc : st.copying = true) :
    uartRXByte st b =
      if st.index < MINMEA_MAX_SENTENCE_LENGTH then
        ⟨true, st.index + 1, st.uartBuf.set st.index b, st.frameBuf⟩
      else st := by
  have hng : ¬ (b = 10 ∧ hasGGA (st.uartBuf.set st.index b) = true) :=
    fun hcontra => hn hcontra.1
  simp only [uartRXByte, uartRXStep, if_neg hb, hc, true_and]
  by_cases hidx : st.index < MINMEA_MAX_SENTENCE_LENGTH
  · rw [if_pos hidx, if_pos hidx]
    simp only [if_neg hng]
  · rw [if_neg hidx, if_neg hidx]

/-- Feeding any delimiter-free, terminator-free bytes while capturing
never publishes and moves the index to the capped sum. -/
theorem uartFeed_frame_fixed (body : List Nat)
    (hb : ∀ x ∈ body, x ≠ 36 ∧ x ≠ 10) :
    ∀ st : UartState, st.copying = true →
    st.index ≤ MINMEA_MAX_SENTENCE_LENGTH →
    (uartRXFeed st body).copying = true ∧
    (uartRXFeed st body).frameBuf = st.frameBuf ∧
    (uartRXFeed st body).index =
      min (st.index + body.length) MINMEA_MAX_SENTENCE_LENGTH := by
  induction body with
  | nil =>
    intro st hc hi
    refine ⟨hc, rfl, ?_⟩
    simp only [uartRXFeed, List.foldl_nil, List.length_nil]
    omega
  | cons b rest ih =>
    intro st hc hi
    have hb1 := hb b (List.mem_cons_self _ _)
    have hstep : uartRXFeed st (b :: rest) = uartRXFeed (uartRXByte st b) rest :=
      rfl
    rw [hstep, uartRXByte_mid st b hb1.1 hb1.2 hc]
    by_cases hidx : st.index < MINMEA_MAX_SENTENCE_LENGTH
    · rw [if_pos hidx]
      have hres := ih (fun x hx => hb x (List.mem_cons_of_mem _ hx))
        ⟨true, st.index + 1, st.uartBuf.set st.index b, st.frameBuf⟩ rfl
        (by simpa using hidx)
      refine ⟨hres.1, hres.2.1, ?_⟩
      rw [hres.2.2]
      simp only [List.length_cons]
      omega
    · rw [if_neg hidx]
      have hres := ih (fun x hx => hb x (List.mem_cons_of_mem _ hx)) st hc hi
      refine ⟨hres.1, hres.2.1, ?_⟩
      rw [hres.2.2]
      simp only [List.length_cons]
      omega

/-- Feeding delimiter-free, terminator-free bytes while capturing from a
buffer holding exactly `w`: the in-progress buffer accumulates the bytes
(truncated at capacity) over a zero tail, and the published frame is
untouched. -/
theorem uartFeed_capture (body : List Nat)
    (hb : ∀ x ∈ body, x ≠ 36 ∧ x ≠ 10) :
    ∀ (w : List Nat) (st : UartState), st.copying = true →
    w.length ≤ MINMEA_MAX_SENTENCE_LENGTH → st.index = w.length →
    st.uartBuf = w ++
      List.replicate (MINMEA_MAX_SENTENCE_LENGTH - w.length) 0 →
    (uartRXFeed st body).copying = true ∧
    (uartRXFeed st body).frameBuf = st.frameBuf ∧
    (uartRXFeed st body).index =
      min (w.length + body.length) MINMEA_MAX_SENTENCE_LENGTH ∧
    (uartRXFeed st body).uartBuf =
      (w ++ body).take MINMEA_MAX_SENTENCE_LENGTH ++
        List.replicate (MINMEA_MAX_SENTENCE_LENGTH -
          min (w.length + body.length) MINMEA_MAX_SENTENCE_LENGTH) 0 := by
  induction body with
  | nil =>
    intro w st hc hw hi hbuf
    refine ⟨hc, rfl, ?_, ?_⟩
    · simp only [uartRXFeed, List.foldl_nil, List.length_nil, Nat.add_zero]
      rw [Nat.min_eq_left hw]
      exact hi
    · simp only [uartRXFeed, List.foldl_nil, List.append_nil, List.length_nil,
        Nat.add_zero]
      rw [Nat.min_eq_left hw, List.take_of_length_le hw, hbuf]
  | cons b rest ih =>
    intro w st hc hw hi hbuf
    have hb1 := hb b (List.mem_cons_self _ _)
    have hstep : uartRXFeed st (b :: rest) = uartRXFeed (uartRXByte st b) rest :=
      rfl
    rw [hstep, uartRXByte_mid st b hb1.1 hb1.2 hc]
    by_cases hidx : st.index < MINMEA_MAX_SENTENCE_LENGTH
    · rw [if_pos hidx]
      have hset : st.uartBuf.set st.index b =
          (w ++ [b]) ++ List.replicate
            (MINMEA_MAX_SENTENCE_LENGTH - (w ++ [b]).length) 0 := by
        have hk : MINMEA_MAX_SENTENCE_LENGTH - w.length =
            (MINMEA_MAX_SENTENCE_LENGTH - (w ++ [b]).length) + 1 := by
          simp only [List.length_append, List.length_cons, List.length_nil]
          omega
        rw [hbuf, hi, List.set_append_right _ _ (le_refl w.length),
          Nat.sub_self, hk, List.replicate_succ, List.set_cons_zero]
        simp only [List.append_assoc, List.singleton_append]
      have hres := ih (fun x hx => hb x (List.mem_cons_of_mem _ hx)) (w ++ [b])
        ⟨true, st.index + 1, st.uartBuf.set st.index b, st.frameBuf⟩ rfl
        (by simp only [List.length_append, List.length_cons, List.length_nil]; omega)
        (by simp only [List.length_append, List.length_cons, List.length_nil]; omega)
        hset
      refine ⟨hres.1, hres.2.1, ?_, ?_⟩
      · rw [hres.2.2.1]
        simp only [List.length_append, List.length_cons, List.length_nil]
        omega
      · rw [hres.2.2.2]
        have hassoc : (w ++ [b]) ++ rest = w ++ b :: rest := by
          simp [List.append_assoc]
        rw [hassoc]
        congr 2
        simp only [List.length_append, List.length_cons, List.length_nil]
        omega
    · rw [if_neg hidx]
      have hwlen : w.length = MINMEA_MAX_SENTENCE_LENGTH := by omega
      have hres := ih (fun x hx => hb x (List.mem_cons_of_mem _ hx)) w st hc hw
        hi hbuf
      refine ⟨hres.1, hres.2.1, ?_, ?_⟩
      · rw [hres.2.2.1]
        simp only [List.length_cons]
        omega
      · rw [hres.2.2.2]
        rw [List.take_append_of_le_length (by omega),
          List.take_append_of_le_length (by omega)]
        congr 2
        simp only [List.length_cons]
        omega


/-- At capacity, any non-delimiter byte is a no-op. -/
theorem uartRXByte_atCapacity (st : UartState) (ch : Nat) (hch : ch ≠ 36)
    (hful : ¬ st.index < MINMEA_MAX_SENTENCE_LENGTH) : uartRXByte st ch = st := by
  simp only [uartRXByte, uartRXStep, if_neg hch]
  rw [if_neg fun hcon => hful hcon.2]

/-- C5: every in-progress-buffer write of `uartRX` lands strictly below
`MINMEA_MAX_SENTENCE_LENGTH`, and a sentence whose body reaches capacity
before its terminator is never published, not even partially — the
published frame is untouched over the whole sentence, from any state. -/
theorem uartRX_write_bounds_overflow_unpublished :
    (∀ (st : UartState) (ch : Nat), ∀ i ∈ uartRXWrites st ch,
        i < MINMEA_MAX_SENTENCE_LENGTH) ∧
      ∀ (st : UartState) (body : List Nat),
        (∀ x ∈ body, x ≠ 36 ∧ x ≠ 10) →
        MINMEA_MAX_SENTENCE_LENGTH ≤ body.length + 1 →
        (uartRXFeed st (36 :: body ++ [10])).frameBuf = st.frameBuf := by
  constructor
  · intro st ch i hi
    simp only [uartRXWrites, uartRXStep] at hi
    split at hi
    · split at hi
      · next hcond =>
        simp at hi
        exact hi ▸ hcond.2
      · simp at hi
    · split at hi
      · next hcond =>
        simp at hi
        exact hi ▸ hcond.2
      · simp at hi
  · intro st body hb hlen
    have h1 : uartRXFeed st (36 :: body ++ [10]) =
        uartRXByte (uartRXFeed (uartRXByte st 36) body) 10 := by
      simp only [uartRXFeed, List.foldl_cons, List.foldl_append,
        List.foldl_nil]
    rw [h1, uartRXByte_dollar]
    obtain ⟨hc2, hf2, hi2⟩ := uartFeed_frame_fixed body hb
      ⟨true, 1, st.uartBuf.set 0 36, st.frameBuf⟩ rfl
      (by show 1 ≤ MINMEA_MAX_SENTENCE_LENGTH; decide)
    have hi2' : (uartRXFeed ⟨true, 1, st.uartBuf.set 0 36, st.frameBuf⟩
        body).index = min (1 + body.length) MINMEA_MAX_SENTENCE_LENGTH := by
      simpa using hi2
    rw [uartRXByte_atCapacity _ 10 (by decide) (by rw [hi2']; omega)]
    exact hf2

/-- C4 as amended: from the boot state, feeding the GGA sentence
publishes exactly its bytes (over the zero tail of the fixed buffer);
and from the boot state a complete sentence containing no `"GGA"`
leaves the published frame unchanged.  (The boot-state restriction is
forced: `strstr` scans the whole in-progress buffer, stale bytes
included — see the counterexample.) -/
theorem uartRX_gga_publish_filter_boot :
    (uartRXFeed uartInitState ggaSentence).frameBuf =
        ggaSentence ++ List.replicate 65 0 ∧
      ∀ body : List Nat, (∀ x ∈ body, x ≠ 36 ∧ x ≠ 10) →
        containsSeq [71, 71, 65] (36 :: body ++ [10]) = false →
        (uartRXFeed uartInitState (36 :: body ++ [10])).frameBuf =
          uartInitState.frameBuf := by
  refine ⟨by decide, ?_⟩
  intro body hb hng
  have h1 : uartRXFeed uartInitState (36 :: body ++ [10]) =
      uartRXByte (uartRXFeed (uartRXByte uartInitState 36) body) 10 := by
    simp only [uartRXFeed, List.foldl_cons, List.foldl_append, List.foldl_nil]
  rw [h1, uartRXByte_dollar]
  obtain ⟨hc2, hf2, hi2, hb2⟩ := uartFeed_capture body hb [36]
    ⟨true, 1, uartInitState.uartBuf.set 0 36, uartInitState.frameBuf⟩ rfl
    (by decide) (by decide) (by decide)
  have hi2' : (uartRXFeed
      ⟨true, 1, uartInitState.uartBuf.set 0 36, uartInitState.frameBuf⟩
      body).index = min (1 + body.length) MINMEA_MAX_SENTENCE_LENGTH := by
    simpa using hi2
  by_cases hlen : 1 + body.length < MINMEA_MAX_SENTENCE_LENGTH
  · -- the terminator is stored; the scan finds no marker, so no publish
    have hb2' : (uartRXFeed
        ⟨true, 1, uartInitState.uartBuf.set 0 36, uartInitState.frameBuf⟩
        body).uartBuf = (36 :: body) ++ List.replicate
          (MINMEA_MAX_SENTENCE_LENGTH - (1 + body.length)) 0 := by
      rw [hb2]
      simp only [List.length_singleton, List.singleton_append]
      rw [Nat.min_eq_left (by omega),
        List.take_of_length_le (by simp only [List.length_cons]; omega)]
    have hset : (uartRXFeed
        ⟨true, 1, uartInitState.uartBuf.set 0 36, uartInitState.frameBuf⟩
        body).uartBuf.set (uartRXFeed
        ⟨true, 1, uartInitState.uartBuf.set 0 36, uartInitState.frameBuf⟩
        body).index 10 =
        (36 :: body ++ [10]) ++ List.replicate
          (MINMEA_MAX_SENTENCE_LENGTH - (1 + body.length) - 1) 0 := by
      rw [hb2', hi2', Nat.min_eq_left (by omega)]
      have hL : 1 + body.length = (36 :: body).length := by
        simp only [List.length_cons]
        omega
      rw [hL, List.set_append_right _ _ (le_refl _), Nat.sub_self]
      have hk : MINMEA_MAX_SENTENCE_LENGTH - (36 :: body).length =
          (MINMEA_MAX_SENTENCE_LENGTH - (1 + body.length) - 1) + 1 := by
        simp only [List.length_cons]
        omega
      rw [hk, List.replicate_succ, List.set_cons_zero]
      simp [List.append_assoc]
    have hGGA : hasGGA ((uartRXFeed
        ⟨true, 1, uartInitState.uartBuf.set 0 36, uartInitState.frameBuf⟩
        body).uartBuf.set (uartRXFeed
        ⟨true, 1, uartInitState.uartBuf.set 0 36, uartInitState.frameBuf⟩
        body).index 10) = false := by
      rw [hset]
      unfold hasGGA
      rw [cScan_append_replicate]
      cases hcs : containsSeq [71, 71, 65] (cScan (36 :: body ++ [10])) with
      | false => rfl
      | true =>
        obtain ⟨t, ht⟩ := cScan_eq_append (36 :: body ++ [10])
        have hext := containsSeq_extend [71, 71, 65] (cScan (36 :: body ++ [10])) t hcs
        rw [ht] at hext
        rw [hext] at hng
        cases hng
    simp only [uartRXByte, uartRXStep, if_neg (by decide : ¬ (10 : Nat) = 36)]
    rw [if_pos ⟨hc2, by rw [hi2']; omega⟩]
    dsimp only
    rw [if_neg fun hcon => Bool.false_ne_true (hGGA ▸ hcon.2)]
    exact hf2
  · rw [uartRXByte_atCapacity _ 10 (by decide) (by rw [hi2']; omega)]
    exact hf2


/-- C4 counterexample: after the GGA sentence `"$AAAAGGA*29\r\n"` is
published, feeding the complete marker-free sentence `"$B\n"` *changes*
the published frame: `strstr` runs over the whole in-progress buffer and
finds the stale `"GGA"` left over from the earlier, longer sentence, so
the short sentence is published over it. -/
theorem uartRX_stale_marker_republishes :
    containsSeq [71, 71, 65] cexSecond = false ∧
      (uartRXFeed (uartRXFeed uartInitState cexFirst) cexSecond).frameBuf ≠
        (uartRXFeed uartInitState cexFirst).frameBuf := by decide
